import Mathlib

/-!
Verification of the two-pass XMLTV EPG parser and its batched, transactional
SQLite loader (`src/backend/epg_parser.py`).

The development shallowly embeds the parts of the program the claims are
about:

* the relational store (`sources`, `channels`, `programs` tables with the
  cascading-delete behavior declared in `init_database`), modelled as lists
  of rows;
* the SAX content handlers `ChannelHandler` and `ProgramHandler` as explicit
  state machines folded over a list of XML events
  (element-open / character-data / element-close);
* the batched transactional writes `_process_channel_batch` and
  `_process_program_batch`, with an explicit oracle (one boolean per flush)
  standing for "the commit of this batch raises a non-IntegrityError
  exception"; a `ROLLBACK` leaves the store exactly as it was before
  `BEGIN TRANSACTION`;
* the two-pass orchestrator `TwoPassEPGParser.parse`
  (`_first_pass` / `_second_pass`) and the per-source driver
  `process_source`.

Python string operations are modelled over the character list of a `String`:
`pyStrip` models `str.strip()` and `containsAtSrc` models the membership
test `"@src" in buffer` (the library's `String.trim`/`String.splitOn` are
defined by well-founded recursion and do not reduce in the kernel, so the
models are written by structural recursion instead).

Fields of the Python handlers that are written but never read
(`current_element`, `last_progress_report`) are omitted from the handler
states; the wall-clock progress throttle in `_report_progress` only logs and
has no effect on parsing state.  The MD5 source-id derivation in
`process_source` is kept abstract: the source id is a parameter.
-/

namespace EpgParser

/-! ## Python string helpers -/

/-- Characters removed by Python `str.strip()` (the whitespace characters
occurring in XMLTV text content). -/
def isSpaceChar (c : Char) : Bool :=
  c == ' ' || c == '\t' || c == '\n' || c == '\r'

/-- Drop leading whitespace characters. -/
def dropLeading : List Char → List Char
  | [] => []
  | c :: rest => if isSpaceChar c then dropLeading rest else c :: rest

/-- Model of Python `str.strip()`: drop leading and trailing whitespace. -/
def pyStrip (s : String) : String :=
  ⟨(dropLeading ((dropLeading s.data).reverse)).reverse⟩

/-- `pat.isPrefixOf` scanned along every suffix: substring containment test
on character lists. -/
def hasSubAux (pat : List Char) : List Char → Bool
  | [] => pat.isEmpty
  | c :: rest => pat.isPrefixOf (c :: rest) || hasSubAux pat rest

/-- Model of the Python test `"@src" in buffer`
(`ChannelHandler.endElement`, icon branch). -/
def containsAtSrc (s : String) : Bool :=
  hasSubAux "@src".data s.data

/-! ## Relational store (schema of `init_database`) -/

/-- A row of the `channels` table:
`channels(id PK, source_id FK→sources CASCADE DELETE, name, icon NULL)`. -/
structure ChannelRow where
  id : String
  source_id : String
  name : String
  icon : Option String
deriving DecidableEq, Repr

/-- A row of the `programs` table:
`programs(id PK, channel_id FK→channels CASCADE DELETE, title, description,
start, stop, category)`. -/
structure ProgramRow where
  id : String
  channel_id : String
  title : String
  description : Option String
  start : String
  stop : String
  category : Option String
deriving DecidableEq, Repr

/-- A row of the `sources` table:
`sources(id PK, name, url, file_path, channel_count, program_count,
last_updated)`. -/
structure SourceRow where
  id : String
  name : String
  url : String
  file_path : Option String
  channel_count : Nat
  program_count : Nat
  last_updated : String
deriving DecidableEq, Repr

/-- The two tables the SAX handlers write to. -/
structure Store where
  channels : List ChannelRow
  programs : List ProgramRow
deriving DecidableEq, Repr

/-- The whole database. -/
structure DB where
  sources : List SourceRow
  store : Store
deriving DecidableEq, Repr

/-- `INSERT INTO channels ...`, and on `sqlite3.IntegrityError` (duplicate
primary key) the fallback
`UPDATE channels SET source_id = ?, name = ?, icon = ? WHERE id = ?`
(`ChannelHandler._process_channel_batch`).  In every modelled run the
owning source row exists, so the only integrity failure is a duplicate id. -/
def upsertChannel (st : Store) (c : ChannelRow) : Store :=
  if st.channels.any (fun c0 => c0.id == c.id) then
    { st with channels := st.channels.map (fun c0 =>
        if c0.id == c.id then
          { c0 with source_id := c.source_id, name := c.name, icon := c.icon }
        else c0) }
  else
    { st with channels := st.channels ++ [c] }

/-- `INSERT OR REPLACE INTO programs ...` with `PRAGMA foreign_keys = ON`:
a primary-key conflict replaces the stored row in place, while a
foreign-key violation (the referenced channel row does not exist) raises
`sqlite3.IntegrityError`, which `_process_program_batch` catches per record:
the record is logged and skipped and the loop continues. -/
def insertOrReplaceProgram (st : Store) (p : ProgramRow) : Store :=
  if st.channels.any (fun c => c.id == p.channel_id) then
    if st.programs.any (fun q => q.id == p.id) then
      { st with programs := st.programs.map (fun q => if q.id == p.id then p else q) }
    else
      { st with programs := st.programs ++ [p] }
  else
    st

/-- `INSERT OR REPLACE` without the foreign-key guard (used only to state
what a successful program batch commits). -/
def replaceProgram (st : Store) (p : ProgramRow) : Store :=
  if st.programs.any (fun q => q.id == p.id) then
    { st with programs := st.programs.map (fun q => if q.id == p.id then p else q) }
  else
    { st with programs := st.programs ++ [p] }

/-- The foreign-key test `insertOrReplaceProgram` performs for one record. -/
def fkOk (st : Store) (p : ProgramRow) : Bool :=
  st.channels.any (fun c => c.id == p.channel_id)

/-- `ChannelHandler._process_channel_batch`: on an empty batch return at
once; otherwise `BEGIN TRANSACTION`, upsert every buffered record in order,
`COMMIT`, and clear the buffer.  The head of the oracle tells whether the
transaction fails with an exception, in which case `ROLLBACK` restores the
pre-transaction store and the buffered records are discarded. -/
def processChannelBatch (st : Store) (batch : List ChannelRow) (oracle : List Bool) :
    Store × List ChannelRow × List Bool :=
  if batch.isEmpty then (st, batch, oracle)
  else if oracle.headD false then (st, [], oracle.tail)
  else (batch.foldl upsertChannel st, [], oracle.tail)

/-- `ProgramHandler._process_program_batch`: like the channel batch, but each
record is written with `insertOrReplaceProgram`, whose per-record
IntegrityError path skips just that record. -/
def processProgramBatch (st : Store) (batch : List ProgramRow) (oracle : List Bool) :
    Store × List ProgramRow × List Bool :=
  if batch.isEmpty then (st, batch, oracle)
  else if oracle.headD false then (st, [], oracle.tail)
  else (batch.foldl insertOrReplaceProgram st, [], oracle.tail)

/-! ## XML events -/

/-- SAX events delivered to a content handler. -/
inductive XmlEvent where
  | startE (name : String) (attrs : List (String × String))
  | text (s : String)
  | endE (name : String)
deriving DecidableEq, Repr

/-- `attrs.get(key, "")`. -/
def lookupAttr (attrs : List (String × String)) (key : String) : String :=
  match attrs.find? (fun a => a.1 == key) with
  | some a => a.2
  | none => ""

/-- Both handlers flush every 1000 buffered records (`self.batch_size`). -/
def batchSize : Nat := 1000

/-! ## First pass: `ChannelHandler` -/

/-- Mutable state of `ChannelHandler`, plus the store it writes to and the
commit-failure oracle. -/
structure ChanPassState where
  store : Store
  channel_count : Nat
  in_channel : Bool
  cur : ChannelRow
  buffer : String
  batch : List ChannelRow
  channel_ids : List String
  oracle : List Bool
deriving DecidableEq, Repr

/-- Add an id to the running channel-id set (`self.channel_ids.add`). -/
def insertId (ids : List String) (x : String) : List String :=
  if ids.contains x then ids else ids ++ [x]

/-- Flush the channel buffer through `_process_channel_batch`. -/
def flushChan (s : ChanPassState) : ChanPassState :=
  let r := processChannelBatch s.store s.batch s.oracle
  { s with store := r.1, batch := r.2.1, oracle := r.2.2 }

/-- `ChannelHandler.startElement`. -/
def chanStart (sid : String) (s : ChanPassState) (name : String)
    (attrs : List (String × String)) : ChanPassState :=
  let s := { s with buffer := "" }
  if name == "channel" then
    { s with in_channel := true,
             cur := { id := lookupAttr attrs "id", source_id := sid,
                      name := "", icon := none } }
  else s

/-- `ChannelHandler.characters`. -/
def chanChars (s : ChanPassState) (t : String) : ChanPassState :=
  { s with buffer := s.buffer ++ t }

/-- Python truthiness of the icon slot (`not self.current_channel["icon"]`):
`None` and the empty string are falsy. -/
def iconFalsy : Option String → Bool
  | none => true
  | some t => t == ""

/-- `ChannelHandler.endElement`. -/
def chanEnd (s : ChanPassState) (name : String) : ChanPassState :=
  if s.in_channel then
    if name == "display-name" then
      { s with cur := { s.cur with name := pyStrip s.buffer } }
    else if name == "icon" then
      if iconFalsy s.cur.icon && containsAtSrc s.buffer then
        { s with cur := { s.cur with icon := some (pyStrip s.buffer) } }
      else s
    else if name == "channel" then
      let s := { s with in_channel := false }
      if s.cur.id == "" then s
      else
        let s := { s with batch := s.batch ++ [s.cur],
                          channel_ids := insertId s.channel_ids s.cur.id,
                          channel_count := s.channel_count + 1 }
        if batchSize ≤ s.batch.length then flushChan s else s
    else s
  else s

/-- Dispatch one SAX event to `ChannelHandler`. -/
def chanStep (sid : String) (s : ChanPassState) : XmlEvent → ChanPassState
  | .startE n attrs => chanStart sid s n attrs
  | .text t => chanChars s t
  | .endE n => chanEnd s n

/-- Fold `ChannelHandler` over a list of events. -/
def chanRun (sid : String) (evs : List XmlEvent) (s : ChanPassState) : ChanPassState :=
  evs.foldl (chanStep sid) s

/-- `ChannelHandler.endDocument`: flush whatever is still buffered. -/
def chanEndDoc (s : ChanPassState) : ChanPassState :=
  flushChan s

/-- The handler state `ChannelHandler.__init__` builds (the initial
`current_channel` is the empty dict; it is never read before a
channel-open rewrites it). -/
def initChanState (st : Store) (oracle : List Bool) : ChanPassState :=
  { store := st, channel_count := 0, in_channel := false,
    cur := { id := "", source_id := "", name := "", icon := none },
    buffer := "", batch := [], channel_ids := [], oracle := oracle }

/-! ## Second pass: `ProgramHandler` -/

/-- Mutable state of `ProgramHandler`. -/
structure ProgPassState where
  store : Store
  program_count : Nat
  skipped : Nat
  in_programme : Bool
  cur : ProgramRow
  buffer : String
  batch : List ProgramRow
  channel_ids : List String
  oracle : List Bool
deriving DecidableEq, Repr

/-- Flush the program buffer through `_process_program_batch`. -/
def flushProg (s : ProgPassState) : ProgPassState :=
  let r := processProgramBatch s.store s.batch s.oracle
  { s with store := r.1, batch := r.2.1, oracle := r.2.2 }

/-- `ProgramHandler.startElement`: on programme-open read the `channel`
attribute at once; if it is not in the channel-id set, leave
`in_programme` false and count the element as skipped; otherwise build the
candidate with the raw `start`/`stop` attribute strings and the derived
identity `channel_id + "_" + start + "_" + stop`. -/
def progStart (s : ProgPassState) (name : String)
    (attrs : List (String × String)) : ProgPassState :=
  let s := { s with buffer := "" }
  if name == "programme" then
    let s := { s with in_programme := true }
    let channelId := lookupAttr attrs "channel"
    if s.channel_ids.contains channelId then
      { s with cur := { id := channelId ++ "_" ++ lookupAttr attrs "start"
                              ++ "_" ++ lookupAttr attrs "stop",
                        channel_id := channelId,
                        title := "", description := none,
                        start := lookupAttr attrs "start",
                        stop := lookupAttr attrs "stop",
                        category := none } }
    else
      { s with in_programme := false, skipped := s.skipped + 1 }
  else s

/-- `ProgramHandler.characters`. -/
def progChars (s : ProgPassState) (t : String) : ProgPassState :=
  { s with buffer := s.buffer ++ t }

/-- `ProgramHandler.endElement`: populate title/desc/category from the
stripped buffer; on programme-close accept the candidate into the batch
only when the title is non-empty. -/
def progEnd (s : ProgPassState) (name : String) : ProgPassState :=
  if s.in_programme then
    if name == "title" then
      { s with cur := { s.cur with title := pyStrip s.buffer } }
    else if name == "desc" then
      { s with cur := { s.cur with description := some (pyStrip s.buffer) } }
    else if name == "category" then
      { s with cur := { s.cur with category := some (pyStrip s.buffer) } }
    else if name == "programme" then
      let s := { s with in_programme := false }
      if s.cur.title == "" then s
      else
        let s := { s with batch := s.batch ++ [s.cur],
                          program_count := s.program_count + 1 }
        if batchSize ≤ s.batch.length then flushProg s else s
    else s
  else s

/-- Dispatch one SAX event to `ProgramHandler`. -/
def progStep (s : ProgPassState) : XmlEvent → ProgPassState
  | .startE n attrs => progStart s n attrs
  | .text t => progChars s t
  | .endE n => progEnd s n

/-- Fold `ProgramHandler` over a list of events. -/
def progRun (evs : List XmlEvent) (s : ProgPassState) : ProgPassState :=
  evs.foldl progStep s

/-- `ProgramHandler.endDocument`. -/
def progEndDoc (s : ProgPassState) : ProgPassState :=
  flushProg s

/-- The handler state `ProgramHandler.__init__` builds, parameterized by the
channel-id set handed over from the first pass. -/
def initProgState (st : Store) (ids : List String) (oracle : List Bool) : ProgPassState :=
  { store := st, program_count := 0, skipped := 0, in_programme := false,
    cur := { id := "", channel_id := "", title := "", description := none,
             start := "", stop := "", category := none },
    buffer := "", batch := [], channel_ids := ids, oracle := oracle }

/-! ## Orchestrator: `TwoPassEPGParser` and `process_source` -/

/-- One opening of the input: the SAX events the stream delivers, and
whether the underlying parse then raises (malformed document, IO error)
instead of reaching end-of-document.  Both passes re-open the same
content, so they see the same events and the same failure. -/
structure Stream where
  events : List XmlEvent
  fails : Bool
deriving DecidableEq, Repr

/-- What `TwoPassEPGParser._first_pass` leaves behind: its boolean return
value, and the values of `self.channel_count` / `self.channel_ids` /
the store after it ran.  On an exception the except-branch returns `False`
before the assignments to `self.channel_count` and `self.channel_ids`, so
those keep their initial values `0` and the empty set, while batches
committed before the failure stay in the store and `endDocument` never
runs. -/
structure FirstPassOut where
  ok : Bool
  count : Nat
  ids : List String
  store : Store
deriving DecidableEq, Repr

/-- `TwoPassEPGParser._first_pass`. -/
def firstPass (sid : String) (stream : Stream) (st : Store) (oracle : List Bool) :
    FirstPassOut :=
  let sF := chanRun sid stream.events (initChanState st oracle)
  if stream.fails then
    { ok := false, count := 0, ids := [], store := sF.store }
  else
    let sD := chanEndDoc sF
    { ok := true, count := sD.channel_count, ids := sD.channel_ids, store := sD.store }

/-- What `TwoPassEPGParser._second_pass` leaves behind, with the same
convention: on an exception `self.program_count` and
`self.skipped_programs` keep their initial value `0`. -/
structure SecondPassOut where
  ok : Bool
  count : Nat
  skipped : Nat
  store : Store
deriving DecidableEq, Repr

/-- `TwoPassEPGParser._second_pass`. -/
def secondPass (stream : Stream) (ids : List String) (st : Store) (oracle : List Bool) :
    SecondPassOut :=
  let sF := progRun stream.events (initProgState st ids oracle)
  if stream.fails then
    { ok := false, count := 0, skipped := 0, store := sF.store }
  else
    let sD := progEndDoc sF
    { ok := true, count := sD.program_count, skipped := sD.skipped, store := sD.store }

/-- `UPDATE sources SET channel_count = ?, program_count = ?,
last_updated = ? WHERE id = ?` with an explicit timestamp value `now`
(`datetime.now().isoformat()` in `TwoPassEPGParser.parse`). -/
def updateSourceStats (sid now : String) (cc pc : Nat) (db : DB) : DB :=
  { db with sources := db.sources.map (fun r =>
      if r.id == sid then
        { r with channel_count := cc, program_count := pc, last_updated := now }
      else r) }

/-- Outcome of `TwoPassEPGParser.parse`. -/
structure ParseResult where
  success : Bool
  channelCount : Nat
  programCount : Nat
  skippedCount : Nat
  db : DB
deriving DecidableEq, Repr

/-- `TwoPassEPGParser.parse`: run the first pass, then — without consulting
the first pass's boolean result — run the second pass over the same
content, write the counts and an explicit timestamp into the source row,
and return `True` unconditionally. -/
def parse (sid now : String) (stream : Stream) (chanOracle progOracle : List Bool)
    (db : DB) : ParseResult :=
  let f := firstPass sid stream db.store chanOracle
  let g := secondPass stream f.ids f.store progOracle
  let db2 := updateSourceStats sid now f.count g.count { db with store := g.store }
  { success := true, channelCount := f.count, programCount := g.count,
    skippedCount := g.skipped, db := db2 }

/-- `DELETE FROM sources WHERE id = ?` with `PRAGMA foreign_keys = ON`:
cascading delete removes the source's channel rows and every program row
referencing one of those channels. -/
def deleteSource (sid : String) (db : DB) : DB :=
  let deadIds := (db.store.channels.filter (fun c => c.source_id == sid)).map (·.id)
  { sources := db.sources.filter (fun r => !(r.id == sid)),
    store := { channels := db.store.channels.filter (fun c => !(c.source_id == sid)),
               programs := db.store.programs.filter
                 (fun p => !(deadIds.contains p.channel_id)) } }

/-- `INSERT INTO sources (id, name, url, channel_count, program_count)
VALUES (?, ?, ?, 0, 0)`: `file_path` is not supplied (NULL) and
`last_updated` receives the store-side default `CURRENT_TIMESTAMP`, which
we model as the parameter `dbNow`. -/
def insertSource (sid nm url dbNow : String) (db : DB) : DB :=
  { db with sources := db.sources ++
      [{ id := sid, name := nm, url := url, file_path := none,
         channel_count := 0, program_count := 0, last_updated := dbNow }] }

/-- The database state `process_source` builds before parsing starts:
delete the source row (cascading), then insert a fresh source row. -/
def preParse (sid nm url dbNow : String) (db : DB) : DB :=
  insertSource sid nm url dbNow (deleteSource sid db)

/-- `process_source` (download step abstracted away): wipe the source,
reinsert it, parse, and return the parser's outcome together with the
final database. -/
def processSource (sid nm url dbNow now : String) (stream : Stream)
    (chanOracle progOracle : List Bool) (db : DB) : Bool × DB :=
  let db1 := preParse sid nm url dbNow db
  let r := parse sid now stream chanOracle progOracle db1
  (r.success, r.db)

/-! ## Derived notions used in the statements -/

/-- The 4.3a identity derivation: a program row's id is the concatenation
of its own raw channel id, start and stop strings. -/
def keyOk (p : ProgramRow) : Prop :=
  p.id = p.channel_id ++ "_" ++ p.start ++ "_" ++ p.stop

/-- The invariant carrying 4.3a through the second pass: every persisted
program row, every buffered program row, and (while inside an accepted
programme element) the candidate under construction have the derived key. -/
def progKeyInv (s : ProgPassState) : Prop :=
  (∀ p ∈ s.store.programs, keyOk p) ∧ (∀ p ∈ s.batch, keyOk p) ∧
  (s.in_programme = true → keyOk s.cur)

/-- The first-pass ownership invariant: every channel row written, buffered
or under construction during a run for source `sid` belongs to `sid`. -/
def chanSidInv (sid : String) (s : ChanPassState) : Prop :=
  (∀ c ∈ s.store.channels, c.source_id = sid) ∧
  (∀ c ∈ s.batch, c.source_id = sid) ∧
  (s.in_channel = true → s.cur.source_id = sid)

/-- Referential consistency of the store: every program row references an
existing channel row. -/
def storeFkInv (st : Store) : Prop :=
  ∀ p ∈ st.programs, ∃ c ∈ st.channels, c.id = p.channel_id

/-- The SAX event span of one programme element: its open event, its child
events, and its close event. -/
def progSpan (attrs : List (String × String)) (children : List XmlEvent) :
    List XmlEvent :=
  XmlEvent.startE "programme" attrs :: (children ++ [XmlEvent.endE "programme"])

/-- Events that open a programme element. -/
def isProgrammeStart : XmlEvent → Bool
  | .startE n _ => n == "programme"
  | _ => false

/-- Events that open or close a programme element. -/
def isProgrammeTag : XmlEvent → Bool
  | .startE n _ => n == "programme"
  | .endE n => n == "programme"
  | .text _ => false

/-- The events of one `icon` child element with text `t`. -/
def iconEvents (t : String) : List XmlEvent :=
  [XmlEvent.startE "icon" [], XmlEvent.text t, XmlEvent.endE "icon"]

/-- The events of one channel element with the given id, one display-name
child with text `nm`, and one icon child per entry of `icons`. -/
def channelBlock (cid nm : String) (icons : List String) : List XmlEvent :=
  [XmlEvent.startE "channel" [("id", cid)],
   XmlEvent.startE "display-name" [], XmlEvent.text nm,
   XmlEvent.endE "display-name"]
  ++ (icons.map iconEvents).flatten
  ++ [XmlEvent.endE "channel"]

/-- The icon update rule of `ChannelHandler.endElement` (set the icon only
when it is still falsy and the buffered text contains `"@src"`) applied to
a list of icon texts in order. -/
def iconFold (icon : Option String) (icons : List String) : Option String :=
  icons.foldl
    (fun ic t => if iconFalsy ic && containsAtSrc t then some (pyStrip t) else ic)
    icon

/-! ## Concrete demonstration inputs -/

/-- A database with no rows at all. -/
def emptyDB : DB := { sources := [], store := { channels := [], programs := [] } }

/-- The feed of testable property §8: channels `c1`, `c2` and four
programme elements — two on `c1`, one on `c2`, one referencing the unknown
channel `c3`. -/
def demoFeedEvents : List XmlEvent :=
  [ XmlEvent.startE "tv" [],
    XmlEvent.startE "channel" [("id", "c1")],
    XmlEvent.startE "display-name" [], XmlEvent.text "Chan One",
    XmlEvent.endE "display-name",
    XmlEvent.endE "channel",
    XmlEvent.startE "channel" [("id", "c2")],
    XmlEvent.startE "display-name" [], XmlEvent.text " Chan Two ",
    XmlEvent.endE "display-name",
    XmlEvent.endE "channel",
    XmlEvent.startE "programme" [("channel", "c1"), ("start", "s1"), ("stop", "t1")],
    XmlEvent.startE "title" [], XmlEvent.text "P1", XmlEvent.endE "title",
    XmlEvent.endE "programme",
    XmlEvent.startE "programme" [("channel", "c1"), ("start", "s4"), ("stop", "t4")],
    XmlEvent.startE "title" [], XmlEvent.text "P4", XmlEvent.endE "title",
    XmlEvent.endE "programme",
    XmlEvent.startE "programme" [("channel", "c2"), ("start", "s2"), ("stop", "t2")],
    XmlEvent.startE "title" [], XmlEvent.text "P2", XmlEvent.endE "title",
    XmlEvent.endE "programme",
    XmlEvent.startE "programme" [("channel", "c3"), ("start", "s3"), ("stop", "t3")],
    XmlEvent.startE "title" [], XmlEvent.text "P3", XmlEvent.endE "title",
    XmlEvent.endE "programme",
    XmlEvent.endE "tv" ]

/-- The demonstration feed delivered without a stream failure. -/
def demoStream : Stream := { events := demoFeedEvents, fails := false }

/-- The demonstration feed whose underlying parse raises after the events
(a malformed document or IO error): both passes see the failure. -/
def failingStream : Stream := { events := demoFeedEvents, fails := true }

/-- A database with two sources owning one channel each, and one program
per channel. -/
def demoDB6 : DB :=
  { sources := [ { id := "A", name := "An", url := "Au", file_path := none,
                   channel_count := 1, program_count := 1, last_updated := "DA" },
                 { id := "B", name := "Bn", url := "Bu", file_path := none,
                   channel_count := 1, program_count := 1, last_updated := "DB" } ],
    store := { channels := [ { id := "cA", source_id := "A", name := "NA", icon := none },
                             { id := "cB", source_id := "B", name := "NB", icon := none } ],
               programs := [ { id := "cA_x_y", channel_id := "cA", title := "PA",
                               description := none, start := "x", stop := "y",
                               category := none },
                             { id := "cB_x_y", channel_id := "cB", title := "PB",
                               description := none, start := "x", stop := "y",
                               category := none } ] } }

/-- A database owned by source `A` whose channel id `c` clashes with the
channel id used by the feed below. -/
def clashDB : DB :=
  { sources := [ { id := "A", name := "An", url := "Au", file_path := none,
                   channel_count := 1, program_count := 1, last_updated := "DA" } ],
    store := { channels := [ { id := "c", source_id := "A", name := "ChanC", icon := none } ],
               programs := [ { id := "c_x_y", channel_id := "c", title := "OldProg",
                               description := none, start := "x", stop := "y",
                               category := none } ] } }

/-- A feed for source `B` that declares channel id `c` and one programme
on it. -/
def clashStream : Stream :=
  { events := [ XmlEvent.startE "tv" [],
                XmlEvent.startE "channel" [("id", "c")],
                XmlEvent.startE "display-name" [], XmlEvent.text "NewC",
                XmlEvent.endE "display-name",
                XmlEvent.endE "channel",
                XmlEvent.startE "programme" [("channel", "c"), ("start", "s"), ("stop", "t")],
                XmlEvent.startE "title" [], XmlEvent.text "P", XmlEvent.endE "title",
                XmlEvent.endE "programme",
                XmlEvent.endE "tv" ],
    fails := false }

/-- A store holding exactly one channel of source `s1`. -/
def oneChanStore : Store :=
  { channels := [ { id := "c1", source_id := "s1", name := "N1", icon := none } ],
    programs := [] }

/-- A program row on the stored channel `c1`. -/
def progOnC1 : ProgramRow :=
  { id := "c1_a_b", channel_id := "c1", title := "T1", description := none,
    start := "a", stop := "b", category := none }

/-- A program row on the absent channel `missing`: inserting it violates
the foreign-key constraint. -/
def progOnMissing : ProgramRow :=
  { id := "missing_a_b", channel_id := "missing", title := "T2",
    description := none, start := "a", stop := "b", category := none }

/-- The initial program-pass handler state over the one-channel store with
channel-id set `["c1"]` and no commit failures. -/
def demoRejectState : ProgPassState := initProgState oneChanStore ["c1"] []

/-- Children of a programme element: one title child with text `PX`. -/
def demoTitleChildren : List XmlEvent :=
  [XmlEvent.startE "title" [], XmlEvent.text "PX", XmlEvent.endE "title"]

/-- Children of a programme element: one title child whose text is all
whitespace, stripping to the empty title. -/
def demoBlankTitleChildren : List XmlEvent :=
  [XmlEvent.startE "title" [], XmlEvent.text "   ", XmlEvent.endE "title"]

/-- A channel record not yet present in `oneChanStore`. -/
def chanNew : ChannelRow := { id := "c2", source_id := "s1", name := "N2", icon := none }

/-! ## Generic helper lemmas -/

/-- An invariant preserved by every step of a left fold holds of its
result. -/
theorem foldl_inv {α β : Type} {f : α → β → α} {P : α → Prop} :
    ∀ (l : List β) (s : α), P s → (∀ a b, b ∈ l → P a → P (f a b)) →
      P (l.foldl f s)
  | [], _, h0, _ => h0
  | x :: xs, s, h0, hstep =>
      foldl_inv xs (f s x) (hstep s x (List.mem_cons_self x xs) h0)
        (fun a b hb => hstep a b (List.mem_cons_of_mem x hb))

/-- A projection left unchanged by every step of a left fold is left
unchanged by the fold. -/
theorem foldl_proj {α β γ : Type} (f : α → β → α) (proj : α → γ)
    (h : ∀ a b, proj (f a b) = proj a) :
    ∀ (l : List β) (s : α), proj (l.foldl f s) = proj s
  | [], _ => rfl
  | x :: xs, s => (foldl_proj f proj h xs (f s x)).trans (h s x)

/-- A filter whose predicate fails everywhere returns the empty list. -/
theorem filter_nil_of {α : Type} (p : α → Bool) (l : List α)
    (h : ∀ a ∈ l, p a = false) : l.filter p = [] := by
  induction l with
  | nil => rfl
  | cons x xs ih =>
      simp only [List.filter_cons, h x (List.mem_cons_self x xs)]
      exact ih (fun a ha => h a (List.mem_cons_of_mem x ha))

/-- A filter whose predicate holds everywhere returns the whole list. -/
theorem filter_all_of {α : Type} (p : α → Bool) (l : List α)
    (h : ∀ a ∈ l, p a = true) : l.filter p = l := by
  induction l with
  | nil => rfl
  | cons x xs ih =>
      simp only [List.filter_cons, h x (List.mem_cons_self x xs), if_true]
      exact congrArg (x :: ·) (ih (fun a ha => h a (List.mem_cons_of_mem x ha)))

/-! ## Component-preservation lemmas -/

/-- The channel upsert never touches the `programs` table. -/
theorem upsertChannel_programs (st : Store) (c : ChannelRow) :
    (upsertChannel st c).programs = st.programs := by
  unfold upsertChannel; split <;> rfl

/-- The program write never touches the `channels` table. -/
theorem insertOrReplaceProgram_channels (st : Store) (p : ProgramRow) :
    (insertOrReplaceProgram st p).channels = st.channels := by
  unfold insertOrReplaceProgram
  split
  · split <;> rfl
  · rfl

/-- The unconditional program replace never touches the `channels` table. -/
theorem replaceProgram_channels (st : Store) (p : ProgramRow) :
    (replaceProgram st p).channels = st.channels := by
  unfold replaceProgram; split <;> rfl

/-- A channel batch flush never touches the `programs` table. -/
theorem processChannelBatch_programs (st : Store) (b : List ChannelRow)
    (o : List Bool) : (processChannelBatch st b o).1.programs = st.programs := by
  unfold processChannelBatch
  split
  · rfl
  · split
    · rfl
    · exact foldl_proj upsertChannel Store.programs upsertChannel_programs b st

/-- A program batch flush never touches the `channels` table. -/
theorem processProgramBatch_channels (st : Store) (b : List ProgramRow)
    (o : List Bool) : (processProgramBatch st b o).1.channels = st.channels := by
  unfold processProgramBatch
  split
  · rfl
  · split
    · rfl
    · exact foldl_proj insertOrReplaceProgram Store.channels
        insertOrReplaceProgram_channels b st

/-- One `ChannelHandler` event never touches the `programs` table. -/
theorem chanStep_programs (sid : String) (s : ChanPassState) (e : XmlEvent) :
    (chanStep sid s e).store.programs = s.store.programs := by
  cases e with
  | startE n attrs =>
      show (chanStart sid s n attrs).store.programs = s.store.programs
      unfold chanStart; split <;> rfl
  | text t => rfl
  | endE n =>
      show (chanEnd s n).store.programs = s.store.programs
      unfold chanEnd flushChan
      dsimp only
      split_ifs <;> simp [processChannelBatch_programs]

/-- The whole first pass never touches the `programs` table. -/
theorem firstPass_programs (sid : String) (stream : Stream) (st : Store)
    (o : List Bool) : (firstPass sid stream st o).store.programs = st.programs := by
  unfold firstPass
  have hrun : ∀ (l : List XmlEvent) (s : ChanPassState),
      (chanRun sid l s).store.programs = s.store.programs :=
    foldl_proj (chanStep sid) (fun s => s.store.programs) (chanStep_programs sid)
  split
  · exact (hrun _ _).trans rfl
  · show (chanEndDoc (chanRun sid stream.events (initChanState st o))).store.programs
        = st.programs
    unfold chanEndDoc flushChan
    simp only [processChannelBatch_programs]
    exact (hrun _ _).trans rfl

/-- One `ProgramHandler` event never touches the `channels` table. -/
theorem progStep_channels (s : ProgPassState) (e : XmlEvent) :
    (progStep s e).store.channels = s.store.channels := by
  cases e with
  | startE n attrs =>
      show (progStart s n attrs).store.channels = s.store.channels
      unfold progStart
      dsimp only
      split_ifs <;> rfl
  | text t => rfl
  | endE n =>
      show (progEnd s n).store.channels = s.store.channels
      unfold progEnd flushProg
      dsimp only
      split_ifs <;> simp [processProgramBatch_channels]

/-- The whole second pass never touches the `channels` table. -/
theorem secondPass_channels (stream : Stream) (ids : List String) (st : Store)
    (o : List Bool) : (secondPass stream ids st o).store.channels = st.channels := by
  unfold secondPass
  have hrun : ∀ (l : List XmlEvent) (s : ProgPassState),
      (progRun l s).store.channels = s.store.channels :=
    foldl_proj progStep (fun s => s.store.channels) progStep_channels
  split
  · exact (hrun _ _).trans rfl
  · show (progEndDoc (progRun stream.events (initProgState st ids o))).store.channels
        = st.channels
    unfold progEndDoc flushProg
    simp only [processProgramBatch_channels]
    exact (hrun _ _).trans rfl

/-! ## Claim C3 -/

/-- Records returned to the buffer by a program batch flush come from the
flushed batch. -/
theorem processProgramBatch_batch_sub (st : Store) (b : List ProgramRow)
    (o : List Bool) : ∀ q ∈ (processProgramBatch st b o).2.1, q ∈ b := by
  unfold processProgramBatch
  split
  · exact fun q hq => hq
  · split
    · intro q hq; exact absurd hq (List.not_mem_nil q)
    · intro q hq; exact absurd hq (List.not_mem_nil q)

/-- A single program write preserves "all stored rows have the derived
key", provided the written record has it. -/
theorem insertOrReplaceProgram_keyOk (st : Store) (p : ProgramRow)
    (hst : ∀ q ∈ st.programs, keyOk q) (hp : keyOk p) :
    ∀ q ∈ (insertOrReplaceProgram st p).programs, keyOk q := by
  unfold insertOrReplaceProgram
  split_ifs
  · intro q hq
    rcases List.mem_map.mp hq with ⟨q0, hq0, hq0e⟩
    by_cases h : (q0.id == p.id) = true
    · rw [h] at hq0e; simp at hq0e; exact hq0e ▸ hp
    · rw [Bool.not_eq_true] at h; rw [h] at hq0e; simp at hq0e
      exact hq0e ▸ hst q0 hq0
  · intro q hq
    rcases List.mem_append.mp hq with h | h
    · exact hst q h
    · rcases List.mem_singleton.mp h with rfl; exact hp
  · exact hst

/-- A program batch flush preserves "all stored rows have the derived key",
provided the batch records all have it. -/
theorem processProgramBatch_keyOk (st : Store) (b : List ProgramRow)
    (o : List Bool) (hst : ∀ q ∈ st.programs, keyOk q)
    (hb : ∀ q ∈ b, keyOk q) :
    ∀ q ∈ (processProgramBatch st b o).1.programs, keyOk q := by
  unfold processProgramBatch
  split
  · exact hst
  · split
    · exact hst
    · exact foldl_inv (P := fun st0 => ∀ q ∈ Store.programs st0, keyOk q) b st hst
        (fun a p hp ha => insertOrReplaceProgram_keyOk a p ha (hb p hp))

/-- One `ProgramHandler` event preserves the 4.3a invariant. -/
theorem progStep_keyInv (s : ProgPassState) (e : XmlEvent)
    (h : progKeyInv s) : progKeyInv (progStep s e) := by
  obtain ⟨h1, h2, h3⟩ := h
  cases e with
  | startE n attrs =>
      show progKeyInv (progStart s n attrs)
      unfold progStart
      dsimp only
      split_ifs with hn hc
      · exact ⟨h1, h2, fun _ => rfl⟩
      · exact ⟨h1, h2, fun hfalse => absurd hfalse Bool.false_ne_true⟩
      · exact ⟨h1, h2, fun hin => h3 hin⟩
  | text t => exact ⟨h1, h2, h3⟩
  | endE n =>
      show progKeyInv (progEnd s n)
      unfold progEnd
      dsimp only
      split_ifs with hin hn1 hn2 hn3 hn4 htitle hflush
      · refine ⟨h1, h2, fun _ => ?_⟩
        have := h3 hin
        unfold keyOk at this ⊢
        exact this
      · refine ⟨h1, h2, fun _ => ?_⟩
        have := h3 hin
        unfold keyOk at this ⊢
        exact this
      · refine ⟨h1, h2, fun _ => ?_⟩
        have := h3 hin
        unfold keyOk at this ⊢
        exact this
      · exact ⟨h1, h2, fun hfalse => absurd hfalse Bool.false_ne_true⟩
      · refine ⟨?_, ?_, fun hfalse => absurd hfalse Bool.false_ne_true⟩
        · exact processProgramBatch_keyOk _ _ _ h1
            (fun q hq => (List.mem_append.mp hq).elim (h2 q)
              (fun hq1 => (List.mem_singleton.mp hq1) ▸ h3 hin))
        · intro q hq
          have := processProgramBatch_batch_sub _ _ _ q hq
          exact (List.mem_append.mp this).elim (h2 q)
            (fun hq1 => (List.mem_singleton.mp hq1) ▸ h3 hin)
      · refine ⟨h1, ?_, fun hfalse => absurd hfalse Bool.false_ne_true⟩
        intro q hq
        exact (List.mem_append.mp hq).elim (h2 q)
          (fun hq1 => (List.mem_singleton.mp hq1) ▸ h3 hin)
      · exact ⟨h1, h2, h3⟩
      · exact ⟨h1, h2, h3⟩

/-- The second pass preserves "all stored program rows have the derived
key". -/
theorem secondPass_keyOk (stream : Stream) (ids : List String) (st : Store)
    (o : List Bool) (hst : ∀ p ∈ st.programs, keyOk p) :
    ∀ p ∈ (secondPass stream ids st o).store.programs, keyOk p := by
  have hinit : progKeyInv (initProgState st ids o) :=
    ⟨hst, fun q hq => absurd hq (List.not_mem_nil q),
     fun hfalse => absurd hfalse Bool.false_ne_true⟩
  have hrun : progKeyInv (progRun stream.events (initProgState st ids o)) :=
    foldl_inv stream.events _ hinit (fun a e _ ha => progStep_keyInv a e ha)
  unfold secondPass
  split
  · exact hrun.1
  · show ∀ p ∈ (progEndDoc (progRun stream.events (initProgState st ids o))).store.programs,
        keyOk p
    unfold progEndDoc flushProg
    exact processProgramBatch_keyOk _ _ _ hrun.1 hrun.2.1

/-- `parse` stores exactly what the two passes leave in the store. -/
theorem parse_db_store (sid now : String) (stream : Stream)
    (co po : List Bool) (db : DB) :
    (parse sid now stream co po db).db.store =
      (secondPass stream (firstPass sid stream db.store co).ids
        (firstPass sid stream db.store co).store po).store := rfl

/-- C3: every program row persisted by a parse run has identity key equal
to the concatenation `channelId ++ "_" ++ rawStart ++ "_" ++ rawStop` of
its own raw attribute strings (provided the rows already in the store obey
the same law).  No timestamp normalization is involved anywhere: the key is
built in `ProgramHandler.startElement` from the raw attribute strings, so
it is a pure function of (channel id, start, stop) and identical across
repeated parses of the same feed. -/
theorem C3_program_identity_key (sid now : String) (stream : Stream)
    (co po : List Bool) (db : DB)
    (h0 : ∀ p ∈ db.store.programs, keyOk p) :
    ∀ p ∈ (parse sid now stream co po db).db.store.programs, keyOk p := by
  rw [parse_db_store]
  refine secondPass_keyOk _ _ _ _ ?_
  rw [firstPass_programs]
  exact h0

/-- C3 witness: on the §8 demonstration feed, the stored row for the first
programme on channel `c1` carries the key `"c1_s1_t1"`. -/
theorem C3_witness :
    keyOk { id := "c1_s1_t1", channel_id := "c1", title := "P1",
            description := none, start := "s1", stop := "t1",
            category := none } :=
  C3_program_identity_key "s1" "T" demoStream [] []
    (preParse "s1" "N" "U" "D" emptyDB)
    (fun p hp => absurd hp (List.not_mem_nil p)) _ (by decide)

/-! ## Claim C7 -/

/-- Applying the per-record write loop of a successful program batch equals
first dropping the records that fail the foreign-key check and then
applying the unconditional insert-or-replace to the rest: the skipped
record does not disturb the other records of the batch. -/
theorem foldl_iorp_filter (b : List ProgramRow) :
    ∀ st : Store, b.foldl insertOrReplaceProgram st =
      (b.filter (fun p => fkOk st p)).foldl replaceProgram st := by
  induction b with
  | nil => intro st; rfl
  | cons p rest ih =>
      intro st
      by_cases h : fkOk st p
      · have h1 : insertOrReplaceProgram st p = replaceProgram st p := by
          unfold insertOrReplaceProgram replaceProgram
          rw [show (st.channels.any (fun c => c.id == p.channel_id)) = true from h]
          simp
        have h2 : (p :: rest).filter (fun q => fkOk st q) =
            p :: rest.filter (fun q => fkOk st q) := by
          simp [List.filter_cons, h]
        rw [h2]
        show rest.foldl insertOrReplaceProgram (insertOrReplaceProgram st p) =
          (rest.filter (fun q => fkOk st q)).foldl replaceProgram (replaceProgram st p)
        rw [h1, ih (replaceProgram st p)]
        congr 1
        apply List.filter_congr
        intro q _
        unfold fkOk
        rw [replaceProgram_channels]
      · have h0 : fkOk st p = false := by simpa using h
        have h1 : insertOrReplaceProgram st p = st := by
          unfold insertOrReplaceProgram
          rw [show (st.channels.any (fun c => c.id == p.channel_id)) = false from h0]
          simp
        have h2 : (p :: rest).filter (fun q => fkOk st q) =
            rest.filter (fun q => fkOk st q) := by
          simp [List.filter_cons, h0]
        rw [h2]
        show rest.foldl insertOrReplaceProgram (insertOrReplaceProgram st p) =
          (rest.filter (fun q => fkOk st q)).foldl replaceProgram st
        rw [h1, ih st]

/-- C7: every non-empty batch flush is atomic.  If the transaction fails,
the store is exactly its pre-`BEGIN` state and the buffered records are
discarded with no retry; if it commits, every buffered channel record is
upserted in order, and every buffered program record is written except
those rejected per-record by the store's integrity check (the missing
foreign key), which are skipped while the rest of the batch still
commits. -/
theorem C7_batch_atomicity (st : Store) (cb : List ChannelRow)
    (pb : List ProgramRow) (o : List Bool)
    (hcb : cb ≠ []) (hpb : pb ≠ []) :
    processChannelBatch st cb (true :: o) = (st, [], o) ∧
    processChannelBatch st cb (false :: o) = (cb.foldl upsertChannel st, [], o) ∧
    processProgramBatch st pb (true :: o) = (st, [], o) ∧
    processProgramBatch st pb (false :: o) =
      ((pb.filter (fun p => fkOk st p)).foldl replaceProgram st, [], o) := by
  have hcb1 : cb.isEmpty = false := by simpa [List.isEmpty_iff] using hcb
  have hpb1 : pb.isEmpty = false := by simpa [List.isEmpty_iff] using hpb
  refine ⟨?_, ?_, ?_, ?_⟩ <;>
    simp [processChannelBatch, processProgramBatch, hcb1, hpb1, foldl_iorp_filter]

/-- C7 witness: one new channel record and a two-record program batch whose
second record references the absent channel `missing`. -/
theorem C7_witness :
    processChannelBatch oneChanStore [chanNew] [true] = (oneChanStore, [], []) ∧
    processChannelBatch oneChanStore [chanNew] [false] =
      ([chanNew].foldl upsertChannel oneChanStore, [], []) ∧
    processProgramBatch oneChanStore [progOnC1, progOnMissing] [true] =
      (oneChanStore, [], []) ∧
    processProgramBatch oneChanStore [progOnC1, progOnMissing] [false] =
      (([progOnC1, progOnMissing].filter (fun p => fkOk oneChanStore p)).foldl
        replaceProgram oneChanStore, [], []) :=
  C7_batch_atomicity oneChanStore [chanNew] [progOnC1, progOnMissing] []
    (by decide) (by decide)

/-! ## Claim C2 -/

/-- An element open event that is not a programme open leaves the handler
state unchanged except for the text buffer. -/
theorem progStart_other (s : ProgPassState) (n : String)
    (attrs : List (String × String)) (hn : (n == "programme") = false) :
    progStart s n attrs = { s with buffer := "" } := by
  unfold progStart
  rw [hn]
  simp

/-- Outside a programme element, `ProgramHandler.endElement` does
nothing. -/
theorem progEnd_outside (s : ProgPassState) (n : String)
    (hin : s.in_programme = false) : progEnd s n = s := by
  unfold progEnd
  rw [hin]
  simp

/-- While the handler is outside a programme element, an event that is not
a programme open changes nothing but the text buffer. -/
theorem progStep_outside (s : ProgPassState) (e : XmlEvent)
    (hin : s.in_programme = false) (he : isProgrammeStart e = false) :
    (progStep s e).in_programme = false ∧
    (progStep s e).skipped = s.skipped ∧
    (progStep s e).store = s.store ∧
    (progStep s e).batch = s.batch ∧
    (progStep s e).program_count = s.program_count := by
  cases e with
  | startE n attrs =>
      have hn : (n == "programme") = false := by
        simpa [isProgrammeStart] using he
      have heq : progStep s (XmlEvent.startE n attrs) = { s with buffer := "" } :=
        progStart_other s n attrs hn
      rw [heq]
      exact ⟨hin, rfl, rfl, rfl, rfl⟩
  | text t => exact ⟨hin, rfl, rfl, rfl, rfl⟩
  | endE n =>
      have heq : progStep s (XmlEvent.endE n) = s := progEnd_outside s n hin
      rw [heq]
      exact ⟨hin, rfl, rfl, rfl, rfl⟩

/-- C2: a programme element whose channel attribute is not in the
channel-id set is rejected at its open event: across its whole span the
skipped counter increases by exactly 1, and the store, the batch and the
program count are untouched, so no program row for the element is ever
persisted. -/
theorem C2_unknown_channel_skipped (s : ProgPassState)
    (attrs : List (String × String)) (children : List XmlEvent)
    (_hin : s.in_programme = false)
    (hch : s.channel_ids.contains (lookupAttr attrs "channel") = false)
    (hwf : ∀ e ∈ children, isProgrammeStart e = false) :
    (progRun (progSpan attrs children) s).skipped = s.skipped + 1 ∧
    (progRun (progSpan attrs children) s).store = s.store ∧
    (progRun (progSpan attrs children) s).batch = s.batch ∧
    (progRun (progSpan attrs children) s).program_count = s.program_count := by
  have hopen : progStep s (XmlEvent.startE "programme" attrs) =
      { s with buffer := "", in_programme := false, skipped := s.skipped + 1 } := by
    show progStart s "programme" attrs = _
    unfold progStart
    dsimp only
    rw [hch]
    simp
  have hrun :
      ((progRun (children ++ [XmlEvent.endE "programme"])
          (progStep s (XmlEvent.startE "programme" attrs))).in_programme = false ∧
        (progRun (children ++ [XmlEvent.endE "programme"])
          (progStep s (XmlEvent.startE "programme" attrs))).skipped = s.skipped + 1 ∧
        (progRun (children ++ [XmlEvent.endE "programme"])
          (progStep s (XmlEvent.startE "programme" attrs))).store = s.store ∧
        (progRun (children ++ [XmlEvent.endE "programme"])
          (progStep s (XmlEvent.startE "programme" attrs))).batch = s.batch ∧
        (progRun (children ++ [XmlEvent.endE "programme"])
          (progStep s (XmlEvent.startE "programme" attrs))).program_count
          = s.program_count) := by
    refine foldl_inv (P := fun t : ProgPassState => t.in_programme = false ∧
        t.skipped = s.skipped + 1 ∧ t.store = s.store ∧ t.batch = s.batch ∧
        t.program_count = s.program_count)
      (children ++ [XmlEvent.endE "programme"]) _ ?_ ?_
    · rw [hopen]
      exact ⟨rfl, rfl, rfl, rfl, rfl⟩
    · intro a e he ha
      have hstart : isProgrammeStart e = false := by
        rcases List.mem_append.mp he with h | h
        · exact hwf e h
        · rcases List.mem_singleton.mp h with rfl; rfl
      obtain ⟨ha1, ha2, ha3, ha4, ha5⟩ := ha
      obtain ⟨hb1, hb2, hb3, hb4, hb5⟩ := progStep_outside a e ha1 hstart
      exact ⟨hb1, hb2.trans ha2, hb3.trans ha3, hb4.trans ha4, hb5.trans ha5⟩
  exact ⟨hrun.2.1, hrun.2.2.1, hrun.2.2.2.1, hrun.2.2.2.2⟩

/-- C2 witness: a programme element on the unknown channel `cX`, processed
against the channel-id set containing only `c1`, bumps the skipped counter
from 0 to 1 and leaves the store, the batch and the program count alone. -/
theorem C2_witness :
    (progRun (progSpan [("channel", "cX")] demoTitleChildren) demoRejectState).skipped
      = demoRejectState.skipped + 1 ∧
    (progRun (progSpan [("channel", "cX")] demoTitleChildren) demoRejectState).store
      = demoRejectState.store ∧
    (progRun (progSpan [("channel", "cX")] demoTitleChildren) demoRejectState).batch
      = demoRejectState.batch ∧
    (progRun (progSpan [("channel", "cX")] demoTitleChildren) demoRejectState).program_count
      = demoRejectState.program_count :=
  C2_unknown_channel_skipped demoRejectState [("channel", "cX")] demoTitleChildren
    (by decide) (by decide) (by decide)

/-! ## Claim C4 -/

/-- An accepted programme open: the candidate is initialized from the raw
attributes, with the derived identity key and an empty title. -/
theorem progStart_accept (s : ProgPassState) (attrs : List (String × String))
    (hch : s.channel_ids.contains (lookupAttr attrs "channel") = true) :
    progStep s (XmlEvent.startE "programme" attrs) =
      { s with buffer := "", in_programme := true,
               cur := { id := lookupAttr attrs "channel" ++ "_" ++ lookupAttr attrs "start"
                              ++ "_" ++ lookupAttr attrs "stop",
                        channel_id := lookupAttr attrs "channel",
                        title := "", description := none,
                        start := lookupAttr attrs "start",
                        stop := lookupAttr attrs "stop", category := none } } := by
  show progStart s "programme" attrs = _
  unfold progStart
  dsimp only
  rw [hch]
  simp

/-- While the handler is inside a programme element, an event that is not a
programme tag leaves the store, the batch and both counters unchanged (it
may only update the buffer and the candidate's text fields). -/
theorem progStep_inside (s : ProgPassState) (e : XmlEvent)
    (hin : s.in_programme = true) (he : isProgrammeTag e = false) :
    (progStep s e).in_programme = true ∧
    (progStep s e).skipped = s.skipped ∧
    (progStep s e).store = s.store ∧
    (progStep s e).batch = s.batch ∧
    (progStep s e).program_count = s.program_count := by
  cases e with
  | startE n attrs =>
      have hn : (n == "programme") = false := by
        simpa [isProgrammeTag] using he
      have heq : progStep s (XmlEvent.startE n attrs) = { s with buffer := "" } :=
        progStart_other s n attrs hn
      rw [heq]
      exact ⟨hin, rfl, rfl, rfl, rfl⟩
  | text t => exact ⟨hin, rfl, rfl, rfl, rfl⟩
  | endE n =>
      have hn : (n == "programme") = false := by
        simpa [isProgrammeTag] using he
      show (progEnd s n).in_programme = true ∧ (progEnd s n).skipped = s.skipped ∧
        (progEnd s n).store = s.store ∧ (progEnd s n).batch = s.batch ∧
        (progEnd s n).program_count = s.program_count
      unfold progEnd
      rw [hin, hn]
      split_ifs <;>
        first
          | exact ⟨rfl, rfl, rfl, rfl, rfl⟩
          | exact ⟨hin, rfl, rfl, rfl, rfl⟩
          | contradiction

/-- Closing a programme element whose candidate title is empty only clears
the inside-a-programme flag. -/
theorem progEnd_close_empty_title (t : ProgPassState)
    (hin : t.in_programme = true) (htitle : t.cur.title = "") :
    progEnd t "programme" = { t with in_programme := false } := by
  unfold progEnd
  rw [hin]
  rw [show (("programme" : String) == "title") = false from by decide]
  rw [show (("programme" : String) == "desc") = false from by decide]
  rw [show (("programme" : String) == "category") = false from by decide]
  rw [show (("programme" : String) == "programme") = true from by decide]
  dsimp only
  rw [htitle]
  simp

/-- C4: a programme element whose channel reference is accepted but whose
title is empty at programme close is dropped silently: across its whole
span nothing is added to the batch, nothing is persisted, and neither the
program count nor the skipped counter changes. -/
theorem C4_empty_title_dropped (s : ProgPassState)
    (attrs : List (String × String)) (children : List XmlEvent)
    (_hin : s.in_programme = false)
    (hch : s.channel_ids.contains (lookupAttr attrs "channel") = true)
    (hwf : ∀ e ∈ children, isProgrammeTag e = false)
    (htitle : (progRun children
        (progStep s (XmlEvent.startE "programme" attrs))).cur.title = "") :
    (progRun (progSpan attrs children) s).batch = s.batch ∧
    (progRun (progSpan attrs children) s).store = s.store ∧
    (progRun (progSpan attrs children) s).program_count = s.program_count ∧
    (progRun (progSpan attrs children) s).skipped = s.skipped := by
  have hs1 : (progStep s (XmlEvent.startE "programme" attrs)).in_programme = true ∧
      (progStep s (XmlEvent.startE "programme" attrs)).skipped = s.skipped ∧
      (progStep s (XmlEvent.startE "programme" attrs)).store = s.store ∧
      (progStep s (XmlEvent.startE "programme" attrs)).batch = s.batch ∧
      (progStep s (XmlEvent.startE "programme" attrs)).program_count
        = s.program_count := by
    rw [progStart_accept s attrs hch]
    exact ⟨rfl, rfl, rfl, rfl, rfl⟩
  have hmid : (progRun children
        (progStep s (XmlEvent.startE "programme" attrs))).in_programme = true ∧
      (progRun children
        (progStep s (XmlEvent.startE "programme" attrs))).skipped = s.skipped ∧
      (progRun children
        (progStep s (XmlEvent.startE "programme" attrs))).store = s.store ∧
      (progRun children
        (progStep s (XmlEvent.startE "programme" attrs))).batch = s.batch ∧
      (progRun children
        (progStep s (XmlEvent.startE "programme" attrs))).program_count
        = s.program_count := by
    refine foldl_inv (P := fun t : ProgPassState => t.in_programme = true ∧
        t.skipped = s.skipped ∧ t.store = s.store ∧ t.batch = s.batch ∧
        t.program_count = s.program_count) children _ hs1 ?_
    intro a e he ha
    obtain ⟨ha1, ha2, ha3, ha4, ha5⟩ := ha
    obtain ⟨hb1, hb2, hb3, hb4, hb5⟩ := progStep_inside a e ha1 (hwf e he)
    exact ⟨hb1, hb2.trans ha2, hb3.trans ha3, hb4.trans ha4, hb5.trans ha5⟩
  have hsplit : progRun (progSpan attrs children) s =
      progEnd (progRun children
        (progStep s (XmlEvent.startE "programme" attrs))) "programme" := by
    show ((XmlEvent.startE "programme" attrs ::
        (children ++ [XmlEvent.endE "programme"])).foldl progStep s) = _
    rw [List.foldl_cons, List.foldl_append]
    rfl
  obtain ⟨m1, m2, m3, m4, m5⟩ := hmid
  rw [hsplit, progEnd_close_empty_title _ m1 htitle]
  exact ⟨m4, m3, m5, m2⟩

/-- C4 witness: a programme on the known channel `c1` whose title text is
all whitespace (stripped to empty) is dropped without touching the batch,
the store, the program count or the skipped counter. -/
theorem C4_witness :
    (progRun (progSpan [("channel", "c1")] demoBlankTitleChildren) demoRejectState).batch
      = demoRejectState.batch ∧
    (progRun (progSpan [("channel", "c1")] demoBlankTitleChildren) demoRejectState).store
      = demoRejectState.store ∧
    (progRun (progSpan [("channel", "c1")] demoBlankTitleChildren) demoRejectState).program_count
      = demoRejectState.program_count ∧
    (progRun (progSpan [("channel", "c1")] demoBlankTitleChildren) demoRejectState).skipped
      = demoRejectState.skipped :=
  C4_empty_title_dropped demoRejectState [("channel", "c1")] demoBlankTitleChildren
    (by decide) (by decide) (by decide) (by decide)

/-! ## Claim C6 -/

/-- C6: deleting a source's row cascades: afterwards no channel of that
source remains, and (provided the database was referentially consistent)
every surviving program row still references a surviving channel — no
orphaned program rows.  Moreover the pre-parse database `process_source`
builds (delete then reinsert the source row) holds zero channel rows for
the source, so every (re)processing starts from zero rows. -/
theorem C6_cascade_delete_no_orphans (sid nm url dbNow : String) (db : DB)
    (hcons : ∀ p ∈ db.store.programs, ∃ c ∈ db.store.channels, c.id = p.channel_id) :
    (∀ c ∈ (deleteSource sid db).store.channels, c.source_id ≠ sid) ∧
    (∀ p ∈ (deleteSource sid db).store.programs,
        ∃ c ∈ (deleteSource sid db).store.channels, c.id = p.channel_id) ∧
    ((preParse sid nm url dbNow db).store.channels.filter
        (fun c => c.source_id == sid) = []) := by
  refine ⟨?_, ?_, ?_⟩
  · intro c hc
    have := (List.mem_filter.mp hc).2
    simpa using this
  · intro p hp
    obtain ⟨hp0, hdead⟩ := List.mem_filter.mp hp
    obtain ⟨c, hc0, hcid⟩ := hcons p hp0
    have hcsrc : (c.source_id == sid) = false := by
      by_contra h
      have hsrc : (c.source_id == sid) = true := by
        cases hx : (c.source_id == sid) with
        | false => exact absurd hx h
        | true => rfl
      have hmemdead : p.channel_id ∈
          ((db.store.channels.filter (fun c0 => c0.source_id == sid)).map
            (fun c0 => c0.id)) := by
        refine List.mem_map.mpr ⟨c, ?_, hcid⟩
        exact List.mem_filter.mpr ⟨hc0, hsrc⟩
      have hcont : ((db.store.channels.filter (fun c0 => c0.source_id == sid)).map
          (fun c0 => c0.id)).contains p.channel_id = true :=
        List.elem_eq_true_of_mem hmemdead
      rw [hcont] at hdead
      exact absurd hdead (by simp)
    refine ⟨c, ?_, hcid⟩
    exact List.mem_filter.mpr ⟨hc0, by simpa using hcsrc⟩
  · apply filter_nil_of
    intro c hc
    have := (List.mem_filter.mp hc).2
    simpa using this

/-- C6 witness: deleting source `A` from the two-source database leaves
source `B`'s channel, and the pre-parse database for reprocessing `A`
holds zero channel rows owned by `A`. -/
theorem C6_witness :
    (preParse "A" "An2" "Au2" "D2" demoDB6).store.channels.filter
      (fun c => c.source_id == "A") = [] :=
  (C6_cascade_delete_no_orphans "A" "An2" "Au2" "D2" demoDB6 (by decide)).2.2

/-! ## Claim C1 -/

/-- C1 (code bug evidence): for a source whose stream raises during parsing
(`failingStream.fails = true`), the claimed behavior — both passes aborted
and a source-level failure reported — does not happen.  `_first_pass`
catches the exception and returns `False`, but `parse` discards that value:
the second pass still runs over the same failing stream, `parse` returns
`True`, `process_source` reports success, and the source statistics are
still written (with the counts left at `0` because the except-branches run
before `self.channel_count` / `self.program_count` are assigned). -/
theorem C1_stream_failure_not_reported :
    failingStream.fails = true ∧
    (processSource "s1" "N" "U" "D" "T" failingStream [] [] emptyDB).1 = true ∧
    (parse "s1" "T" failingStream [] [] (preParse "s1" "N" "U" "D" emptyDB)).success = true ∧
    (parse "s1" "T" failingStream [] [] (preParse "s1" "N" "U" "D" emptyDB)).db.sources =
      [{ id := "s1", name := "N", url := "U", file_path := none,
         channel_count := 0, program_count := 0, last_updated := "T" }] := by
  decide

/-! ## Claim C10 -/

/-- C10: the counters are incremented when a record is accepted into the
in-memory batch and are never decremented when a batch commit fails, so the
reported counts and the counts written into the source record can exceed
the rows actually persisted.  Concretely: on the §8 demonstration feed with
the single channel-batch commit and the single program-batch commit both
failing, the run still reports 2 channels, 3 programs and 1 skipped, and
writes 2/3 into the source row, while zero channel rows and zero program
rows are persisted. -/
theorem C10_counts_can_exceed_persisted_rows :
    (parse "s1" "T" demoStream [true] [true] (preParse "s1" "N" "U" "D" emptyDB)).channelCount = 2 ∧
    (parse "s1" "T" demoStream [true] [true] (preParse "s1" "N" "U" "D" emptyDB)).programCount = 3 ∧
    (parse "s1" "T" demoStream [true] [true] (preParse "s1" "N" "U" "D" emptyDB)).skippedCount = 1 ∧
    (parse "s1" "T" demoStream [true] [true] (preParse "s1" "N" "U" "D" emptyDB)).db.store.channels = [] ∧
    (parse "s1" "T" demoStream [true] [true] (preParse "s1" "N" "U" "D" emptyDB)).db.store.programs = [] ∧
    (parse "s1" "T" demoStream [true] [true] (preParse "s1" "N" "U" "D" emptyDB)).db.sources =
      [{ id := "s1", name := "N", url := "U", file_path := none,
         channel_count := 2, program_count := 3, last_updated := "T" }] := by
  decide

/-! ## Claim C9 -/

/-- C9 (counterexample): the orchestrator does not write FOUR aggregate
fields into the source record.  On the §8 demonstration feed the run has
four aggregate outputs (2 channels, 3 programs, 1 skipped, and the
timestamp), yet the source row after `parse` differs from the row before it
in exactly three columns — `channel_count`, `program_count`,
`last_updated` — and the skipped count (here `1`) is stored in no column of
the database. -/
theorem C9_counterexample :
    (parse "s1" "T" demoStream [] [] (preParse "s1" "N" "U" "D" emptyDB)).skippedCount = 1 ∧
    (preParse "s1" "N" "U" "D" emptyDB).sources =
      [{ id := "s1", name := "N", url := "U", file_path := none,
         channel_count := 0, program_count := 0, last_updated := "D" }] ∧
    (parse "s1" "T" demoStream [] [] (preParse "s1" "N" "U" "D" emptyDB)).db.sources =
      [{ id := "s1", name := "N", url := "U", file_path := none,
         channel_count := 2, program_count := 3, last_updated := "T" }] := by
  decide

/-- A map that fixes every element of a list is the identity on it. -/
theorem map_id_of {α : Type} (f : α → α) (l : List α)
    (h : ∀ a ∈ l, f a = a) : l.map f = l := by
  induction l with
  | nil => rfl
  | cons x xs ih =>
      simp only [List.map_cons, h x (List.mem_cons_self x xs)]
      exact congrArg (x :: ·) (ih fun a ha => h a (List.mem_cons_of_mem x ha))

/-- After `parse`, the sources table is the input table with the matching
source row updated to the two counts and the explicit timestamp. -/
theorem parse_sources (sid now : String) (stream : Stream) (co po : List Bool)
    (db : DB) :
    (parse sid now stream co po db).db.sources =
      db.sources.map (fun r =>
        if r.id == sid then
          { r with
              channel_count := (parse sid now stream co po db).channelCount,
              program_count := (parse sid now stream co po db).programCount,
              last_updated := now }
        else r) := rfl

/-- C9 (amended): after both passes the orchestrator writes THREE fields of
the source record — the channel count, the program count, and the
last-updated timestamp; the skipped count is not persisted.  The stored
timestamp is the explicitly supplied `now` value: the store-side default
`dbNow` (`CURRENT_TIMESTAMP` at source insertion) does not appear in the
final row, so the stored last-updated value is reproducible for testing. -/
theorem C9_explicit_timestamp_three_fields (sid nm url dbNow now : String)
    (stream : Stream) (co po : List Bool) (db : DB) :
    (processSource sid nm url dbNow now stream co po db).2.sources =
      (deleteSource sid db).sources ++
        [{ id := sid, name := nm, url := url, file_path := none,
           channel_count :=
             (parse sid now stream co po (preParse sid nm url dbNow db)).channelCount,
           program_count :=
             (parse sid now stream co po (preParse sid nm url dbNow db)).programCount,
           last_updated := now }] := by
  show (parse sid now stream co po (preParse sid nm url dbNow db)).db.sources = _
  rw [parse_sources]
  rw [show (preParse sid nm url dbNow db).sources =
      (deleteSource sid db).sources ++
        [({ id := sid, name := nm, url := url, file_path := none,
            channel_count := 0, program_count := 0,
            last_updated := dbNow } : SourceRow)] from rfl]
  rw [List.map_append]
  congr 1
  · apply map_id_of
    intro r hr
    have hne : (r.id == sid) = false := by
      have := (List.mem_filter.mp hr).2
      simpa using this
    simp [hne]
  · simp

/-! ## Claim C8 -/

/-- C8 (counterexample): the first NON-EMPTY icon seen does not win.  In a
channel block whose first icon text is the non-empty `"first.png"` (which
does not contain `"@src"`) and whose second icon text is `"x@src"`, the
persisted icon is the second text, because `ChannelHandler.endElement` sets
the icon only when the buffered text also contains the substring `"@src"`. -/
theorem C8_counterexample :
    (firstPass "s1" { events := channelBlock "c1" "Name" ["first.png", "x@src"], fails := false }
        { channels := [], programs := [] } []).store.channels =
      [{ id := "c1", source_id := "s1", name := "Name", icon := some "x@src" }] ∧
    "first.png" ≠ "" ∧
    (some "x@src" : Option String) ≠ some "first.png" := by
  decide

/-! ## Claim C8, amended statement -/


/-- Appending to the freshly reset empty buffer yields the text itself. -/
theorem str_empty_append (t : String) : "" ++ t = t := rfl

/-- If dropping leading whitespace empties a list, the list was all
whitespace. -/
theorem dropLeading_eq_nil {l : List Char} (h : dropLeading l = []) :
    ∀ c ∈ l, isSpaceChar c = true := by
  induction l with
  | nil => intro c hc; exact absurd hc (List.not_mem_nil c)
  | cons x xs ih =>
      intro c hc
      by_cases hx : isSpaceChar x
      · have h2 : dropLeading xs = [] := by
          unfold dropLeading at h
          rwa [if_pos hx] at h
        rcases List.mem_cons.mp hc with rfl | hc2
        · exact hx
        · exact ih h2 c hc2
      · unfold dropLeading at h
        rw [if_neg hx] at h
        exact absurd h (List.cons_ne_nil x xs)

/-- A non-whitespace character survives the leading-whitespace drop. -/
theorem mem_dropLeading {c : Char} (hc : isSpaceChar c = false) :
    ∀ {l : List Char}, c ∈ l → c ∈ dropLeading l := by
  intro l
  induction l with
  | nil => intro h; exact absurd h (List.not_mem_nil c)
  | cons x xs ih =>
      intro h
      by_cases hx : isSpaceChar x
      · rcases List.mem_cons.mp h with rfl | h2
        · rw [hx] at hc; exact absurd hc (by simp)
        · unfold dropLeading
          rw [if_pos hx]
          exact ih h2
      · unfold dropLeading
        rw [if_neg hx]
        exact h

/-- Every character of a detected substring occurs in the scanned list. -/
theorem mem_of_hasSubAux {pat : List Char} {c : Char} (hc : c ∈ pat) :
    ∀ {l : List Char}, hasSubAux pat l = true → c ∈ l := by
  intro l
  induction l with
  | nil =>
      intro h
      have : pat = [] := by
        unfold hasSubAux at h
        exact List.isEmpty_iff.mp h
      rw [this] at hc
      exact absurd hc (List.not_mem_nil c)
  | cons x xs ih =>
      intro h
      unfold hasSubAux at h
      rcases Bool.or_eq_true_iff.mp h with h1 | h2
      · exact (List.isPrefixOf_iff_prefix.mp h1).subset hc
      · exact List.mem_cons_of_mem x (ih h2)

/-- A text containing `"@src"` does not strip to the empty string, so an
icon once set is never falsy again. -/
theorem pyStrip_ne_empty_of_atSrc {t : String} (h : containsAtSrc t = true) :
    (pyStrip t == "") = false := by
  by_contra hcon
  have heq : pyStrip t = "" := by
    cases hx : (pyStrip t == "") with
    | false => exact absurd hx hcon
    | true => exact (beq_iff_eq).mp hx
  have hnil : (dropLeading ((dropLeading t.data).reverse)).reverse = [] :=
    congrArg String.data heq
  have hnil2 : dropLeading ((dropLeading t.data).reverse) = [] :=
    List.reverse_eq_nil_iff.mp hnil
  have hspace : ∀ c ∈ dropLeading t.data, isSpaceChar c = true := by
    intro c hcmem
    exact dropLeading_eq_nil hnil2 c (List.mem_reverse.mpr hcmem)
  have hat : ('@' : Char) ∈ t.data :=
    mem_of_hasSubAux (by decide) h
  have hat2 : ('@' : Char) ∈ dropLeading t.data :=
    mem_dropLeading (by decide) hat
  have := hspace _ hat2
  exact absurd this (by decide)

/-- Once the icon slot holds a non-falsy value, later icon texts are
ignored. -/
theorem iconFold_frozen {ic : Option String} (h : iconFalsy ic = false) :
    ∀ icons : List String, iconFold ic icons = ic := by
  intro icons
  induction icons with
  | nil => rfl
  | cons t rest ih =>
      show iconFold (if iconFalsy ic && containsAtSrc t then some (pyStrip t) else ic) rest = ic
      rw [h]
      simpa using ih

/-- Starting from an unset icon, the icon update rule keeps the first icon
text containing `"@src"` (stripped), ignoring every other text. -/
theorem iconFold_none_eq_find (icons : List String) :
    iconFold none icons = (icons.find? containsAtSrc).map pyStrip := by
  induction icons with
  | nil => rfl
  | cons t rest ih =>
      by_cases h : containsAtSrc t
      · have h1 : iconFold none (t :: rest) = iconFold (some (pyStrip t)) rest := by
          show iconFold (if iconFalsy none && containsAtSrc t then some (pyStrip t) else none) rest
            = iconFold (some (pyStrip t)) rest
          rw [show (iconFalsy none && containsAtSrc t) = true from by
            simp [iconFalsy, h]]
          simp
        rw [h1, iconFold_frozen (show iconFalsy (some (pyStrip t)) = false from
          pyStrip_ne_empty_of_atSrc h)]
        rw [List.find?_cons_of_pos _ h]
        rfl
      · have h0 : containsAtSrc t = false := by simpa using h
        have h1 : iconFold none (t :: rest) = iconFold none rest := by
          show iconFold (if iconFalsy none && containsAtSrc t then some (pyStrip t) else none) rest
            = iconFold none rest
          rw [show (iconFalsy none && containsAtSrc t) = false from by
            simp [iconFalsy, h0]]
          simp
        rw [h1, ih, List.find?_cons_of_neg _ (by simp [h0])]

/-- Processing one `icon` child element applies exactly one step of the
icon update rule. -/
theorem chanRun_iconTriple (sid t : String) (s : ChanPassState)
    (hin : s.in_channel = true) :
    chanRun sid (iconEvents t) s =
      { s with buffer := t,
               cur := { s.cur with icon :=
                 (if iconFalsy s.cur.icon && containsAtSrc t then some (pyStrip t)
                  else s.cur.icon) } } := by
  have h1 : chanStart sid s "icon" [] = { s with buffer := "" } := by
    unfold chanStart
    rw [show (("icon" : String) == "channel") = false from by decide]
    simp
  have h2 : chanChars { s with buffer := "" } t = { s with buffer := t } := by
    unfold chanChars
    rw [show ("" ++ t : String) = t from rfl]
  have h3 : chanEnd { s with buffer := t } "icon" =
      { s with buffer := t,
               cur := { s.cur with icon :=
                 (if iconFalsy s.cur.icon && containsAtSrc t then some (pyStrip t)
                  else s.cur.icon) } } := by
    unfold chanEnd
    rw [show ({ s with buffer := t } : ChanPassState).in_channel = true from hin]
    rw [show (("icon" : String) == "display-name") = false from by decide]
    rw [show (("icon" : String) == "icon") = true from by decide]
    dsimp only
    split_ifs <;> first | rfl | contradiction
  show chanEnd (chanChars (chanStart sid s "icon" []) t) "icon" = _
  rw [h1, h2, h3]



/-- Processing a run of `icon` child elements folds the icon update rule
over their texts. -/
theorem chanRun_icons (sid : String) (icons : List String) :
    ∀ s : ChanPassState, s.in_channel = true →
      chanRun sid ((icons.map iconEvents).flatten) s =
        { s with buffer := icons.foldl (fun _ t => t) s.buffer,
                 cur := { s.cur with icon := iconFold s.cur.icon icons } } := by
  induction icons with
  | nil =>
      intro s hin
      show s = _
      rfl
  | cons t rest ih =>
      intro s hin
      have hsplit : chanRun sid (((t :: rest).map iconEvents).flatten) s =
          chanRun sid ((rest.map iconEvents).flatten) (chanRun sid (iconEvents t) s) := by
        show ((iconEvents t ++ (rest.map iconEvents).flatten).foldl (chanStep sid) s) = _
        rw [List.foldl_append]
        rfl
      rw [hsplit, chanRun_iconTriple sid t s hin]
      rw [ih _ (by exact hin)]
      rfl



/-- Processing one whole channel element appends to the batch a record
with the element id, the stripped display-name text, and the icon chosen
by the icon update rule, and adds the id to the channel-id set. -/
theorem chanRun_channelBlock (sid cid nm : String) (icons : List String)
    (s : ChanPassState) (_hin : s.in_channel = false)
    (hid : (cid == "") = false) (hroom : s.batch.length + 1 < batchSize) :
    chanRun sid (channelBlock cid nm icons) s =
      { s with buffer := icons.foldl (fun _ t => t) nm,
               in_channel := false,
               cur := { id := cid, source_id := sid, name := pyStrip nm,
                        icon := iconFold none icons },
               batch := s.batch ++
                 [{ id := cid, source_id := sid, name := pyStrip nm,
                    icon := iconFold none icons }],
               channel_ids := insertId s.channel_ids cid,
               channel_count := s.channel_count + 1 } := by
  have h1 : chanStart sid s "channel" [("id", cid)] =
      { s with buffer := "", in_channel := true,
               cur := { id := cid, source_id := sid, name := "", icon := none } } := by
    unfold chanStart
    rw [show (("channel" : String) == "channel") = true from by decide]
    simp [lookupAttr]
  have h2 : ∀ u : ChanPassState, chanStart sid u "display-name" [] = { u with buffer := "" } := by
    intro u
    unfold chanStart
    rw [show (("display-name" : String) == "channel") = false from by decide]
    simp
  have h3 : ∀ u : ChanPassState, u.buffer = "" → chanChars u nm = { u with buffer := nm } := by
    intro u hu
    unfold chanChars
    rw [hu]
    rw [show ("" ++ nm : String) = nm from rfl]
  have h4 : ∀ u : ChanPassState, u.in_channel = true → u.buffer = nm →
      chanEnd u "display-name" = { u with cur := { u.cur with name := pyStrip nm } } := by
    intro u hu hb
    unfold chanEnd
    rw [hu, hb]
    rw [show (("display-name" : String) == "display-name") = true from by decide]
    simp
  have h5 : ∀ u : ChanPassState, u.in_channel = true → u.cur.id = cid →
      u.batch.length + 1 < batchSize →
      chanEnd u "channel" =
        { u with in_channel := false, batch := u.batch ++ [u.cur],
                 channel_ids := insertId u.channel_ids u.cur.id,
                 channel_count := u.channel_count + 1 } := by
    intro u hu hcurid hru
    unfold chanEnd
    rw [hu]
    rw [show (("channel" : String) == "display-name") = false from by decide]
    rw [show (("channel" : String) == "icon") = false from by decide]
    rw [show (("channel" : String) == "channel") = true from by decide]
    dsimp only
    rw [hcurid, hid]
    simp only [List.length_append, List.length_cons, List.length_nil]
    split_ifs <;>
      first
        | rfl
        | contradiction
        | exact absurd (by assumption) (Nat.not_le.mpr (by omega))
  have hsplit : chanRun sid (channelBlock cid nm icons) s =
      chanEnd (chanRun sid ((icons.map iconEvents).flatten)
        (chanRun sid [XmlEvent.startE "channel" [("id", cid)],
          XmlEvent.startE "display-name" [], XmlEvent.text nm,
          XmlEvent.endE "display-name"] s)) "channel" := by
    unfold channelBlock chanRun
    rw [List.foldl_append, List.foldl_append]
    rfl
  have hA : chanRun sid [XmlEvent.startE "channel" [("id", cid)],
      XmlEvent.startE "display-name" [], XmlEvent.text nm,
      XmlEvent.endE "display-name"] s =
      { s with buffer := nm, in_channel := true,
               cur := { id := cid, source_id := sid, name := pyStrip nm,
                        icon := none } } := by
    show chanEnd (chanChars (chanStart sid (chanStart sid s "channel" [("id", cid)])
      "display-name" []) nm) "display-name" = _
    rw [h1, h2, h3 _ rfl, h4 _ rfl rfl]
  have hB : chanEnd
      { s with buffer := icons.foldl (fun _ t => t) nm, in_channel := true,
               cur := { id := cid, source_id := sid, name := pyStrip nm,
                        icon := iconFold none icons } } "channel" =
      { s with buffer := icons.foldl (fun _ t => t) nm, in_channel := false,
               cur := { id := cid, source_id := sid, name := pyStrip nm,
                        icon := iconFold none icons },
               batch := s.batch ++
                 [{ id := cid, source_id := sid, name := pyStrip nm,
                    icon := iconFold none icons }],
               channel_ids := insertId s.channel_ids cid,
               channel_count := s.channel_count + 1 } :=
    h5 _ rfl rfl hroom
  rw [hsplit, hA, chanRun_icons sid icons _ rfl]
  exact hB



/-- C8 (amended): for a feed of two channel blocks sharing one id, the
persisted channel row carries the LATER block\'s display-name (the second
insert hits the duplicate-key fallback `UPDATE`, so last write wins), and
within a channel element the icon is set only if not already set AND the
buffered text contains `"@src"` — so the first icon text containing
`"@src"` wins, not the first non-empty one. -/
theorem C8_first_atsrc_icon_wins (sid cid n1 n2 : String) (icons1 icons2 : List String)
    (hid : cid ≠ "") :
    (firstPass sid
        { events := (channelBlock cid n1 icons1 ++ channelBlock cid n2 icons2),
          fails := false }
        { channels := [], programs := [] } []).store.channels =
      [{ id := cid, source_id := sid, name := pyStrip n2,
         icon := (icons2.find? containsAtSrc).map pyStrip }] := by
  have hid2 : (cid == "") = false := beq_eq_false_iff_ne.mpr hid
  have hb1 := chanRun_channelBlock sid cid n1 icons1
    (initChanState { channels := [], programs := [] } []) rfl hid2 (by decide)
  have hb2 := chanRun_channelBlock sid cid n2 icons2
    ({ store := { channels := [], programs := [] }, channel_count := 1,
       in_channel := false,
       cur := { id := cid, source_id := sid, name := pyStrip n1,
                icon := iconFold none icons1 },
       buffer := icons1.foldl (fun _ t => t) n1,
       batch := [{ id := cid, source_id := sid, name := pyStrip n1,
                   icon := iconFold none icons1 }],
       channel_ids := [cid], oracle := [] } : ChanPassState) rfl hid2
    (by norm_num [batchSize])
  have hsplit : chanRun sid (channelBlock cid n1 icons1 ++ channelBlock cid n2 icons2)
      (initChanState { channels := [], programs := [] } []) =
      chanRun sid (channelBlock cid n2 icons2)
        (chanRun sid (channelBlock cid n1 icons1)
          (initChanState { channels := [], programs := [] } [])) := by
    unfold chanRun
    rw [List.foldl_append]
  have hup : upsertChannel
      ({ channels := [{ id := cid, source_id := sid, name := pyStrip n1,
                        icon := iconFold none icons1 }],
         programs := [] } : Store)
      ({ id := cid, source_id := sid, name := pyStrip n2,
         icon := iconFold none icons2 } : ChannelRow) =
      ({ channels := [{ id := cid, source_id := sid, name := pyStrip n2,
                        icon := iconFold none icons2 }],
         programs := [] } : Store) := by
    unfold upsertChannel
    simp
  show (chanEndDoc (chanRun sid
      (channelBlock cid n1 icons1 ++ channelBlock cid n2 icons2)
      (initChanState { channels := [], programs := [] } []))).store.channels = _
  rw [hsplit, hb1]
  show (chanEndDoc (chanRun sid (channelBlock cid n2 icons2)
      ({ store := { channels := [], programs := [] }, channel_count := 1,
         in_channel := false,
         cur := { id := cid, source_id := sid, name := pyStrip n1,
                  icon := iconFold none icons1 },
         buffer := icons1.foldl (fun _ t => t) n1,
         batch := [{ id := cid, source_id := sid, name := pyStrip n1,
                     icon := iconFold none icons1 }],
         channel_ids := [cid], oracle := [] } : ChanPassState))).store.channels = _
  rw [hb2]
  show (upsertChannel
      ({ channels := [{ id := cid, source_id := sid, name := pyStrip n1,
                        icon := iconFold none icons1 }],
         programs := [] } : Store)
      ({ id := cid, source_id := sid, name := pyStrip n2,
         icon := iconFold none icons2 } : ChannelRow)).channels = _
  rw [hup, iconFold_none_eq_find]


/-- C8 witness: two blocks with id `c9`; the stored name comes from the
second block and the stored icon is the first `"@src"` text of the second
block. -/
theorem C8_witness :
    (firstPass "s1"
        { events := (channelBlock "c9" "N1" ["a@src"] ++ channelBlock "c9" "N2" ["plain", "b@src"]),
          fails := false }
        { channels := [], programs := [] } []).store.channels =
      [{ id := "c9", source_id := "s1", name := pyStrip "N2",
         icon := ((["plain", "b@src"].find? containsAtSrc).map pyStrip) }] :=
  C8_first_atsrc_icon_wins "s1" "c9" "N1" "N2" ["a@src"] ["plain", "b@src"] (by decide)

/-! ## Claim C5 -/

/-- C5 (counterexample): processing the same unchanged feed twice for
source `B` does not yield identical program rows when a feed channel id
clashes with a channel owned by another source.  The first run reassigns
channel `c` from source `A` to `B` (leaving `A`'s old program on `c` in
place, 2 program rows); the second run's cascading delete of `B` then
removes `A`'s old program as well (1 program row). -/
theorem C5_counterexample :
    (processSource "B" "Bn" "Bu" "D1" "T1" clashStream [] [] clashDB).1 = true ∧
    (processSource "B" "Bn" "Bu" "D1" "T1" clashStream [] [] clashDB).2.store.programs.length = 2 ∧
    (processSource "B" "Bn" "Bu" "D2" "T2" clashStream [] []
        (processSource "B" "Bn" "Bu" "D1" "T1" clashStream [] [] clashDB).2).2.store.programs.length = 1 := by
  decide

/-! ## Claim C5, amended statement -/

/-- Records returned to the buffer by a channel batch flush come from the
flushed batch. -/
theorem processChannelBatch_batch_sub (st : Store) (b : List ChannelRow)
    (o : List Bool) : ∀ q ∈ (processChannelBatch st b o).2.1, q ∈ b := by
  unfold processChannelBatch
  split
  · exact fun q hq => hq
  · split
    · intro q hq; exact absurd hq (List.not_mem_nil q)
    · intro q hq; exact absurd hq (List.not_mem_nil q)

/-- A channel upsert for a record owned by `sid` preserves "all stored
channels are owned by `sid`" (the duplicate-key fallback rewrites the
owner). -/
theorem upsertChannel_allSid {sid : String} (st : Store) (c : ChannelRow)
    (hst : ∀ x ∈ st.channels, x.source_id = sid) (hc : c.source_id = sid) :
    ∀ x ∈ (upsertChannel st c).channels, x.source_id = sid := by
  unfold upsertChannel
  split
  · intro x hx
    rcases List.mem_map.mp hx with ⟨x0, hx0, hx0e⟩
    by_cases h : (x0.id == c.id) = true
    · rw [h] at hx0e; simp at hx0e
      rw [← hx0e]
      exact hc
    · rw [Bool.not_eq_true] at h; rw [h] at hx0e; simp at hx0e
      exact hx0e ▸ hst x0 hx0
  · intro x hx
    rcases List.mem_append.mp hx with h | h
    · exact hst x h
    · rcases List.mem_singleton.mp h with rfl; exact hc

/-- A channel batch flush of `sid`-owned records preserves "all stored
channels are owned by `sid`". -/
theorem processChannelBatch_allSid {sid : String} (st : Store)
    (b : List ChannelRow) (o : List Bool)
    (hst : ∀ x ∈ st.channels, x.source_id = sid)
    (hb : ∀ x ∈ b, x.source_id = sid) :
    ∀ x ∈ (processChannelBatch st b o).1.channels, x.source_id = sid := by
  unfold processChannelBatch
  split
  · exact hst
  · split
    · exact hst
    · exact foldl_inv (P := fun st0 => ∀ x ∈ Store.channels st0, x.source_id = sid)
        b st hst (fun a c hc ha => upsertChannel_allSid a c ha (hb c hc))

/-- One `ChannelHandler` event preserves the ownership invariant. -/
theorem chanStep_sidInv (sid : String) (s : ChanPassState) (e : XmlEvent)
    (h : chanSidInv sid s) : chanSidInv sid (chanStep sid s e) := by
  obtain ⟨h1, h2, h3⟩ := h
  cases e with
  | startE n attrs =>
      show chanSidInv sid (chanStart sid s n attrs)
      unfold chanStart
      dsimp only
      split_ifs
      · exact ⟨h1, h2, fun _ => rfl⟩
      · exact ⟨h1, h2, fun hin => h3 hin⟩
  | text t => exact ⟨h1, h2, h3⟩
  | endE n =>
      show chanSidInv sid (chanEnd s n)
      unfold chanEnd flushChan
      dsimp only
      split_ifs with hin hn1 hn2 hn3 hid hflush
      · exact ⟨h1, h2, fun _ => h3 hin⟩
      · exact ⟨h1, h2, fun _ => h3 hin⟩
      · exact ⟨h1, h2, h3⟩
      · exact ⟨h1, h2, fun hfalse => absurd hfalse Bool.false_ne_true⟩
      · refine ⟨?_, ?_, fun hfalse => absurd hfalse Bool.false_ne_true⟩
        · exact processChannelBatch_allSid _ _ _ h1
            (fun x hx => (List.mem_append.mp hx).elim (h2 x)
              (fun hx1 => (List.mem_singleton.mp hx1) ▸ h3 hin))
        · intro x hx
          have := processChannelBatch_batch_sub _ _ _ x hx
          exact (List.mem_append.mp this).elim (h2 x)
            (fun hx1 => (List.mem_singleton.mp hx1) ▸ h3 hin)
      · refine ⟨h1, ?_, fun hfalse => absurd hfalse Bool.false_ne_true⟩
        intro x hx
        exact (List.mem_append.mp hx).elim (h2 x)
          (fun hx1 => (List.mem_singleton.mp hx1) ▸ h3 hin)
      · exact ⟨h1, h2, h3⟩
      · exact ⟨h1, h2, h3⟩

/-- After a first pass whose starting channels are all `sid`-owned, every
stored channel is `sid`-owned. -/
theorem firstPass_allSid (sid : String) (stream : Stream) (st : Store)
    (o : List Bool) (hst : ∀ x ∈ st.channels, x.source_id = sid) :
    ∀ x ∈ (firstPass sid stream st o).store.channels, x.source_id = sid := by
  have hinit : chanSidInv sid (initChanState st o) :=
    ⟨hst, fun q hq => absurd hq (List.not_mem_nil q),
     fun hfalse => absurd hfalse Bool.false_ne_true⟩
  have hrun : chanSidInv sid (chanRun sid stream.events (initChanState st o)) :=
    foldl_inv stream.events _ hinit (fun a e _ ha => chanStep_sidInv sid a e ha)
  unfold firstPass
  split
  · exact hrun.1
  · show ∀ x ∈ (chanEndDoc (chanRun sid stream.events (initChanState st o))).store.channels,
        x.source_id = sid
    unfold chanEndDoc flushChan
    exact processChannelBatch_allSid _ _ _ hrun.1 hrun.2.1



/-- A single program write preserves referential consistency: a record is
only inserted after its channel passed the foreign-key check. -/
theorem insertOrReplaceProgram_fkInv (st : Store) (q : ProgramRow)
    (hst : storeFkInv st) : storeFkInv (insertOrReplaceProgram st q) := by
  have hchan := insertOrReplaceProgram_channels st q
  intro p hp
  rw [hchan]
  unfold insertOrReplaceProgram at hp
  split at hp
  · next hfk =>
      have hq : ∃ c ∈ st.channels, c.id = q.channel_id := by
        rcases List.any_eq_true.mp hfk with ⟨c, hc, hbeq⟩
        exact ⟨c, hc, (beq_iff_eq).mp hbeq⟩
      split at hp
      · next =>
          dsimp only at hp
          rcases List.mem_map.mp hp with ⟨p0, hp0, hp0e⟩
          by_cases hh : (p0.id == q.id) = true
          · rw [hh] at hp0e; simp at hp0e; exact hp0e ▸ hq
          · rw [Bool.not_eq_true] at hh; rw [hh] at hp0e; simp at hp0e
            exact hp0e ▸ hst p0 hp0
      · next =>
          dsimp only at hp
          rcases List.mem_append.mp hp with h | h
          · exact hst p h
          · rcases List.mem_singleton.mp h with rfl; exact hq
  · next => exact hst p hp

/-- A program batch flush preserves referential consistency. -/
theorem processProgramBatch_fkInv (st : Store) (b : List ProgramRow)
    (o : List Bool) (hst : storeFkInv st) :
    storeFkInv (processProgramBatch st b o).1 := by
  unfold processProgramBatch
  split
  · exact hst
  · split
    · exact hst
    · exact foldl_inv (P := storeFkInv) b st hst
        (fun a q _ ha => insertOrReplaceProgram_fkInv a q ha)

/-- One `ProgramHandler` event preserves referential consistency of the
store. -/
theorem progStep_fkInv (s : ProgPassState) (e : XmlEvent)
    (h : storeFkInv s.store) : storeFkInv (progStep s e).store := by
  cases e with
  | startE n attrs =>
      show storeFkInv (progStart s n attrs).store
      unfold progStart
      dsimp only
      split_ifs <;> exact h
  | text t => exact h
  | endE n =>
      show storeFkInv (progEnd s n).store
      unfold progEnd flushProg
      dsimp only
      split_ifs <;>
        first
          | exact h
          | exact processProgramBatch_fkInv _ _ _ h

/-- The second pass preserves referential consistency of the store. -/
theorem secondPass_fkInv (stream : Stream) (ids : List String) (st : Store)
    (o : List Bool) (hst : storeFkInv st) :
    storeFkInv (secondPass stream ids st o).store := by
  have hrun : storeFkInv (progRun stream.events (initProgState st ids o)).store :=
    foldl_inv (P := fun t : ProgPassState => storeFkInv t.store) stream.events _ hst
      (fun a e _ ha => progStep_fkInv a e ha)
  unfold secondPass
  split
  · exact hrun
  · show storeFkInv (progEndDoc (progRun stream.events (initProgState st ids o))).store
    unfold progEndDoc flushProg
    exact processProgramBatch_fkInv _ _ _ hrun

/-- Deleting a source from a consistent database whose channels all belong
to it empties both tables: the cascade removes every channel and every
program. -/
theorem deleteSource_store_empty (sid : String) (dbX : DB)
    (hA : ∀ c ∈ dbX.store.channels, c.source_id = sid)
    (hB : storeFkInv dbX.store) :
    (deleteSource sid dbX).store = { channels := [], programs := [] } := by
  have hch : dbX.store.channels.filter (fun c => !(c.source_id == sid)) = [] :=
    filter_nil_of _ _ (fun c hc => by simp [hA c hc])
  have hdead : dbX.store.channels.filter (fun c => c.source_id == sid)
      = dbX.store.channels :=
    filter_all_of _ _ (fun c hc => by simp [hA c hc])
  have hpr : dbX.store.programs.filter
      (fun p => !(((dbX.store.channels.filter (fun c => c.source_id == sid)).map
        (fun c => c.id)).contains p.channel_id)) = [] := by
    apply filter_nil_of
    intro p hp
    rcases hB p hp with ⟨c, hc, hcid⟩
    have hmem : p.channel_id ∈ ((dbX.store.channels.filter
        (fun c0 => c0.source_id == sid)).map (fun c0 => c0.id)) := by
      rw [hdead]
      exact List.mem_map.mpr ⟨c, hc, hcid⟩
    have hcont := List.elem_eq_true_of_mem hmem
    rw [Bool.not_eq_false']
    exact hcont
  rw [show (deleteSource sid dbX).store =
      { channels := dbX.store.channels.filter (fun c => !(c.source_id == sid)),
        programs := dbX.store.programs.filter
          (fun p => !(((dbX.store.channels.filter (fun c => c.source_id == sid)).map
            (fun c => c.id)).contains p.channel_id)) } from rfl]
  rw [hch, hpr]

/-- C5 (amended): starting from a database holding no channel and no
program rows, reprocessing the same unchanged feed twice (same stream and
same commit-failure oracles) yields identical channel and program tables:
the second run's cascading delete exactly removes the first run's rows —
every stored channel belongs to the source and every program references a
stored channel — so both runs rebuild from the same empty store.  (The
sources table may differ in its timestamps, which the claim does not
cover.) -/
theorem C5_idempotent_from_clean_store (sid nm url dbNow1 dbNow2 now1 now2 : String)
    (stream : Stream) (co po : List Bool) (db : DB)
    (hc : db.store.channels = []) (hp : db.store.programs = []) :
    (processSource sid nm url dbNow2 now2 stream co po
      (processSource sid nm url dbNow1 now1 stream co po db).2).2.store =
    (processSource sid nm url dbNow1 now1 stream co po db).2.store := by
  have hps : ∀ (dbX : DB) (dN nX : String),
      (processSource sid nm url dN nX stream co po dbX).2.store =
        (secondPass stream
          (firstPass sid stream (deleteSource sid dbX).store co).ids
          (firstPass sid stream (deleteSource sid dbX).store co).store po).store :=
    fun _ _ _ => rfl
  have hclean1 : (deleteSource sid db).store = { channels := [], programs := [] } := by
    rw [show (deleteSource sid db).store =
        { channels := db.store.channels.filter (fun c => !(c.source_id == sid)),
          programs := db.store.programs.filter
            (fun p => !(((db.store.channels.filter (fun c => c.source_id == sid)).map
              (fun c => c.id)).contains p.channel_id)) } from rfl]
    rw [hc, hp]
    rfl
  have hA : ∀ c ∈ ((processSource sid nm url dbNow1 now1 stream co po db).2).store.channels,
      c.source_id = sid := by
    rw [hps db dbNow1 now1, hclean1, secondPass_channels]
    exact firstPass_allSid sid stream _ co
      (fun c hc0 => absurd hc0 (List.not_mem_nil c))
  have hB : storeFkInv ((processSource sid nm url dbNow1 now1 stream co po db).2).store := by
    rw [hps db dbNow1 now1, hclean1]
    apply secondPass_fkInv
    intro p hp0
    rw [firstPass_programs] at hp0
    exact absurd hp0 (List.not_mem_nil p)
  have hclean2 : (deleteSource sid
      ((processSource sid nm url dbNow1 now1 stream co po db).2)).store =
      { channels := [], programs := [] } :=
    deleteSource_store_empty sid _ hA hB
  rw [hps _ dbNow2 now2, hps db dbNow1 now1, hclean1, hclean2]

/-- C5 witness: processing the §8 demonstration feed into the empty
database twice gives the same channel and program tables. -/
theorem C5_witness :
    (processSource "s1" "N" "U" "D2" "T2" demoStream [] []
      (processSource "s1" "N" "U" "D1" "T1" demoStream [] [] emptyDB).2).2.store =
    (processSource "s1" "N" "U" "D1" "T1" demoStream [] [] emptyDB).2.store :=
  C5_idempotent_from_clean_store "s1" "N" "U" "D1" "D2" "T1" "T2" demoStream [] []
    emptyDB rfl rfl

end EpgParser
